import Mathlib

/-!
Shallow embedding of `src/ui/App.tsx` (tula-web): the catalog aggregator and
search filter, the selection state machine and marker reconciliation effects of
the public explorer, and the session / place-mutation pipeline of the
super-admin view.  JS strings are modelled as `List Char`, JS numbers as an
inductive with an explicit NaN/infinity, untyped runtime values reaching the
`typeof` guards as `JsVal`.  Asynchronous handlers are modelled as one-step
functions from state and gateway outcome to state (the transient `isSaving`
spinner, toggled on and back off inside a single handler run, is omitted).
-/

namespace Tula

/-- Characters of a JS string. -/
abbrev Str := List Char

/-- View a Lean string literal as a JS string value. -/
def str (s : String) : Str := s.data

/-- Model of `String.prototype.toLowerCase` (per-character lowering). -/
def toLowerL (s : Str) : Str := s.map Char.toLower

/-- Does `needle` occur at the very start of `hay`? -/
def leadsWith : Str → Str → Bool
  | [], _ => true
  | _ :: _, [] => false
  | a :: as, b :: bs => a == b && leadsWith as bs

/-- Model of `hay.includes(needle)`: substring containment. -/
def hasSub (hay needle : Str) : Bool :=
  match hay with
  | [] => needle.isEmpty
  | c :: t => leadsWith needle (c :: t) || hasSub t needle

/-- Case-insensitive substring containment, the matching notion used by the
search filter. -/
def containsCI (hay needle : Str) : Bool :=
  hasSub (toLowerL hay) (toLowerL needle)

/-- Model of the JS `a || b` fallback on an optional string field: an absent or
empty string falls through to the default. -/
def strOr (a : Option Str) (b : Str) : Str :=
  match a with
  | some s => if s.isEmpty then b else s
  | none => b

/-- JS runtime numbers: finite values (as rationals), NaN and the infinities. -/
inductive JsNum where
  | finite (q : ℚ)
  | nan
  | posInf
  | negInf
deriving DecidableEq

/-- Model of `Number.isFinite` on a number. -/
def JsNum.isFiniteNum : JsNum → Bool
  | .finite _ => true
  | _ => false

/-- An untyped JS runtime value as seen by the `typeof x !== 'number'` guards:
either a number or some non-number value (string, undefined, ...). -/
inductive JsVal where
  | num (x : JsNum)
  | notNum
deriving DecidableEq

/-- Model of `typeof v === 'number'`. -/
def JsVal.isNumberType : JsVal → Bool
  | .num _ => true
  | .notNum => false

/-- The `Item` record of `App.tsx`.  The source field `type` is renamed `ty`
(`type` is a Lean keyword); optional fields model absent JSON keys; the
coordinate fields hold untyped runtime values, reflecting that payloads come
from the network unvalidated. -/
structure Item where
  id : Int
  name : Str
  description : Option Str := none
  category : Option Str := none
  ty : Option Str := none
  lat : JsVal
  lng : JsVal
  photo_url : Option Str := none
deriving DecidableEq

/-- The kind tag attached by the aggregator (`'Artesano'` / `'Lugar'` in the
source). -/
inductive Kind where
  | artesano
  | lugar
deriving DecidableEq, BEq

/-- A catalog entry: an item tagged with its kind (the `{ ...a, kind }` spread
in the `items` memo). -/
structure Entry extends Item where
  kind : Kind
deriving DecidableEq

/-- Tag one item with a kind. -/
def tagEntry (k : Kind) (i : Item) : Entry := { toItem := i, kind := k }

/-- The catalog aggregator: artisans tagged first, then places
(`[...a, ...p]` in the `items` memo). -/
def aggregate (artisans places : List Item) : List Entry :=
  artisans.map (tagEntry .artesano) ++ places.map (tagEntry .lugar)

/-- The searched description field: `(i.description || '')`. -/
def entryDesc (e : Entry) : Str := strOr e.description []

/-- The searched category/type field: `(i.category || i.type || '')`. -/
def entryMeta (e : Entry) : Str := strOr e.category (strOr e.ty [])

/-- The filter predicate of the `items` memo, with `qq` the already-lowercased
query. -/
def matchesQuery (qq : Str) (e : Entry) : Bool :=
  hasSub (toLowerL e.name) qq || hasSub (toLowerL (entryDesc e)) qq
    || hasSub (toLowerL (entryMeta e)) qq

/-- The `items` memo: aggregate both collections, return the whole catalog for
an empty query, else filter by case-insensitive substring match. -/
def itemsView (artisans places : List Item) (q : Str) : List Entry :=
  let all := aggregate artisans places
  if q.isEmpty then all
  else all.filter (matchesQuery (toLowerL q))

/-- The single entry of `FALLBACK_ARTISANS`. -/
def fallbackArtisan1 : Item :=
  { id := 1, name := str "Artesanías de obsidiana",
    description := some (str "Tallado tradicional con piedra volcánica de la región."),
    category := some (str "Artesano"),
    lat := .num (.finite (mkRat 200568 10000)), lng := .num (.finite (mkRat (-993391) 10000)),
    photo_url := some (str "") }

/-- The single entry of `FALLBACK_PLACES`. -/
def fallbackPlace1 : Item :=
  { id := 1, name := str "Zona Arqueológica de Tula",
    description := some (str "Hogar de los Atlantes de Tula y centro ceremonial tolteca."),
    ty := some (str "Zona arqueológica"),
    lat := .num (.finite (mkRat 200624 10000)), lng := .num (.finite (mkRat (-993374) 10000)),
    photo_url := some (str "") }

/-- The fixed sample artisan dataset. -/
def FALLBACK_ARTISANS : List Item := [fallbackArtisan1]

/-- The fixed sample place dataset. -/
def FALLBACK_PLACES : List Item := [fallbackPlace1]

/-- A catalog marker as held in `_publicMarkers` / `markersRef`: its composite
key, the position passed to `setLngLat`, and whether its element carries the
`active` editing class (always false for public markers).  Popup content and
click callbacks are styling/engine concerns outside the embedding. -/
structure MarkerM where
  kind : Kind
  keyId : Int
  lng : JsVal
  lat : JsVal
  active : Bool
deriving DecidableEq

/-- The coordinate guard of both reconciliation effects:
`typeof lat === 'number' && typeof lng === 'number'`. -/
def renderGuard (i : Item) : Bool :=
  i.lat.isNumberType && i.lng.isNumberType

/-- The marker created for one public catalog entry. -/
def publicMarkerOf (e : Entry) : MarkerM :=
  { kind := e.kind, keyId := e.id, lng := e.lng, lat := e.lat, active := false }

/-- The marker created for one admin place, with the `active` class when it is
the currently edited place. -/
def adminMarkerOf (editing : Option Item) (p : Item) : MarkerM :=
  { kind := .lugar, keyId := p.id, lng := p.lng, lat := p.lat,
    active := match editing with | some e => e.id == p.id | none => false }

/-- What one run of a marker effect does: how many existing markers it removed,
how many it created, and the marker list it leaves behind. -/
structure PassResult where
  removedCount : Nat
  addedCount : Nat
  markers : List MarkerM

/-- One run of the public marker effect: remove every existing marker, then
create one marker per entry passing the coordinate type guard. -/
def reconcilePublicPass (prev : List MarkerM) (items : List Entry) : PassResult :=
  let created := (items.filter (fun e => renderGuard e.toItem)).map publicMarkerOf
  { removedCount := prev.length, addedCount := created.length, markers := created }

/-- One run of the admin marker effect: remove every existing marker, then
create one marker per place passing the coordinate type guard, styled by the
editing target. -/
def reconcileAdminPass (prev : List MarkerM) (places : List Item)
    (editing : Option Item) : PassResult :=
  let created := (places.filter renderGuard).map (adminMarkerOf editing)
  { removedCount := prev.length, addedCount := created.length, markers := created }

/-- The state of `PublicExplorer` relevant to selection: the two collections,
the query, the selected item and whether the map instance exists. -/
structure PubState where
  artisans : List Item
  places : List Item
  q : Str
  selected : Option Entry
  mapReady : Bool

/-- Does the current filtered view contain the composite key of `e`
(the `items.some(it => it.id === ... && it.kind === ...)` check)? -/
def viewHasKey (s : PubState) (e : Entry) : Bool :=
  (itemsView s.artisans s.places s.q).any (fun it => it.id == e.id && it.kind == e.kind)

/-- The selection self-heal effect: clear the selection when its composite key
left the filtered view. -/
def selfHeal (s : PubState) : PubState :=
  match s.selected with
  | none => s
  | some it => if viewHasKey s it then s else { s with selected := none }

/-- Events driving the public explorer selection machinery. -/
inductive PubEvent where
  | setQuery (q : Str)
  | setCatalog (artisans places : List Item)
  | focusOn (e : Entry)

/-- The `focus` function: with a live map, fly the camera (one `flyTo` call)
and select the item; without one, do nothing. -/
def focusFn (s : PubState) (e : Entry) : PubState × Nat :=
  if s.mapReady then ({ s with selected := some e }, 1) else (s, 0)

/-- One event step of the public explorer followed by the self-heal effect;
the second component counts the `flyTo` calls the step issued. -/
def pubStep (s : PubState) : PubEvent → PubState × Nat
  | .setQuery q => (selfHeal { s with q := q }, 0)
  | .setCatalog a p => (selfHeal { s with artisans := a, places := p }, 0)
  | .focusOn e =>
      let r := focusFn s e
      (selfHeal r.1, r.2)

/-- A public explorer state holding the sample datasets, used to instantiate
universally quantified theorems. -/
def pubS0 : PubState :=
  { artisans := FALLBACK_ARTISANS, places := FALLBACK_PLACES, q := [],
    selected := none, mapReady := true }

/-- The sample place entry as it appears in the aggregated catalog. -/
def sampleQueryEntry : Entry := tagEntry .lugar fallbackPlace1

/-- Warning shown when the public catalog load fails. -/
def msgLoadFailed : Str :=
  str "No se pudieron cargar los datos en vivo. Mostrando información de ejemplo."

/-- Inline message for a missing name. -/
def msgNameRequired : Str := str "Escribe el nombre del lugar antes de guardar."

/-- Inline message for missing coordinates. -/
def msgLocationRequired : Str :=
  str "Selecciona la ubicación del lugar haciendo clic en el mapa."

/-- Success message after an update. -/
def msgUpdated : Str := str "Lugar actualizado exitosamente."

/-- Success message after a create. -/
def msgCreated : Str := str "Lugar creado exitosamente."

/-- Degraded-mode message after a failed save. -/
def msgDegradedSave : Str :=
  str "No se pudo contactar al servidor. El cambio se guardó localmente."

/-- Success message after a delete. -/
def msgDeleted : Str := str "Lugar eliminado correctamente."

/-- Degraded-mode message after a failed delete. -/
def msgDegradedDelete : Str :=
  str "No se pudo contactar al servidor. El lugar se eliminó localmente."

/-- Login info after a real token arrived. -/
def msgLoggedIn : Str := str "Sesión iniciada correctamente."

/-- Login info in demonstration mode. -/
def msgDemoLogin : Str :=
  str "Inicio de sesión en modo demostración. Recuerda configurar el endpoint real /super-admin/login en la API."

/-- Login error for any other failed attempt. -/
def msgLoginFailed : Str :=
  str "No se pudo iniciar sesión. Verifica tus credenciales o el estado del servidor."

/-- Admin warning when the place catalog could not be loaded. -/
def msgAdminLoadFailed : Str :=
  str "No se pudo obtener la información en vivo. Mostrando datos de ejemplo."

/-- Admin notice for an empty or non-array place catalog. -/
def msgAdminEmpty : Str :=
  str "Aún no hay lugares registrados. Crea el primero usando el formulario."

/-- Outcome of `response.json()` on an ok response: the parse failed, an array
arrived, or some other well-formed JSON value arrived. -/
inductive BodyParse where
  | failJson
  | arr (xs : List Item)
  | nonArr
deriving DecidableEq

/-- Is this a JSON parse failure? -/
def BodyParse.isFailJson : BodyParse → Bool
  | .failJson => true
  | _ => false

/-- Outcome of one `fetch`: the promise rejected, or a response arrived with an
`ok` flag and a body. -/
inductive FetchRes where
  | netFail
  | resp (ok : Bool) (body : BodyParse)
deriving DecidableEq

/-- What the public `loadData` catch branch installs. -/
def loadFallback : List Item × List Item × Option Str :=
  (FALLBACK_ARTISANS, FALLBACK_PLACES, some msgLoadFailed)

/-- The public `loadData` routine: any rejected fetch, non-ok response or JSON
parse failure lands in the catch branch; otherwise each body is kept when it is
an array and replaced by the empty list when it is not, with no error. -/
def loadData (ares pres : FetchRes) : List Item × List Item × Option Str :=
  match ares, pres with
  | .netFail, _ => loadFallback
  | _, .netFail => loadFallback
  | .resp aok abody, .resp pok pbody =>
    if aok = false ∨ pok = false then loadFallback
    else match abody, pbody with
      | .failJson, _ => loadFallback
      | _, .failJson => loadFallback
      | .arr axs, .arr pxs => (axs, pxs, none)
      | .arr axs, .nonArr => (axs, [], none)
      | .nonArr, .arr pxs => ([], pxs, none)
      | .nonArr, .nonArr => ([], [], none)

/-- Does this pair of fetch outcomes reach the catch branch of `loadData`? -/
def loadAborts (a p : FetchRes) : Bool :=
  match a, p with
  | .netFail, _ => true
  | _, .netFail => true
  | .resp aok ab, .resp pok pb =>
      !aok || !pok || ab.isFailJson || pb.isFailJson

/-- The login form fields. -/
structure LoginForm where
  email : Str
  password : Str
deriving DecidableEq

/-- The `PlaceForm` draft record: text fields plus optional coordinates. -/
structure PlaceForm where
  name : Str
  description : Str
  ty : Str
  photo_url : Str
  lat : Option JsNum
  lng : Option JsNum
deriving DecidableEq

/-- `createEmptyPlaceForm`. -/
def createEmptyPlaceForm : PlaceForm :=
  { name := [], description := [], ty := [], photo_url := [], lat := none, lng := none }

/-- The blue placement marker held in `selectionMarkerRef`, with a generation
number distinguishing a repositioned handle from a freshly created one. -/
structure PlacementMarker where
  gen : Nat
  lng : JsNum
  lat : JsNum
deriving DecidableEq

/-- The state of `SuperAdminView`. -/
structure AdminState where
  token : Option Str
  loginForm : LoginForm
  loginError : Option Str
  loginInfo : Option Str
  places : List Item
  placesError : Option Str
  editing : Option Item
  form : PlaceForm
  statusMessage : Option Str
  placementMarker : Option PlacementMarker
  markerGen : Nat
  mapReady : Bool

/-- The body of the placement-marker effect: with both coordinates present,
create the marker lazily (fresh generation) or reposition the existing handle;
otherwise remove it.  Without a map instance the effect returns early. -/
def placementEffectRun (t : AdminState) : AdminState :=
  if t.mapReady = false then t
  else match t.form.lat, t.form.lng with
    | some la, some ln =>
        match t.placementMarker with
        | some m => { t with placementMarker := some { m with lng := ln, lat := la } }
        | none =>
            { t with placementMarker := some { gen := t.markerGen, lng := ln, lat := la },
                     markerGen := t.markerGen + 1 }
    | _, _ => { t with placementMarker := none }

/-- React dependency gating of the placement effect (`[form.lat, form.lng]`):
it re-runs only when one of the coordinates actually changed. -/
def placementEffect (old new : AdminState) : AdminState :=
  if new.form.lat = old.form.lat ∧ new.form.lng = old.form.lng then new
  else placementEffectRun new

/-- Digit-string accumulator for the `Number` coercion model. -/
def parseDigitsAux : Str → Nat → Option Nat
  | [], acc => some acc
  | c :: cs, acc =>
      if c.isDigit then parseDigitsAux cs (acc * 10 + (c.toNat - 48)) else none

/-- Model of the JS `Number(string)` coercion as exercised by
`handleFormChange`: the empty string coerces to 0, a digit string to its value,
and any other string to NaN. -/
def jsNumberOfString (s : Str) : JsNum :=
  match s with
  | [] => .finite 0
  | c :: cs =>
      match parseDigitsAux (c :: cs) 0 with
      | some n => .finite (mkRat n 1)
      | none => .nan

/-- The form fields addressable by `handleFormChange`. -/
inductive FormField where
  | fname
  | fdescription
  | fty
  | fphoto
  | flat
  | flng
deriving DecidableEq

/-- `handleFormChange`: text fields are stored as given; the coordinate fields
are coerced with `Number(value)`, so they always become present (possibly
NaN), never null. -/
def handleFormChange (f : PlaceForm) (field : FormField) (value : Str) : PlaceForm :=
  match field with
  | .fname => { f with name := value }
  | .fdescription => { f with description := value }
  | .fty => { f with ty := value }
  | .fphoto => { f with photo_url := value }
  | .flat => { f with lat := some (jsNumberOfString value) }
  | .flng => { f with lng := some (jsNumberOfString value) }

/-- JS whitespace for `String.prototype.trim`. -/
def isJsSpace (c : Char) : Bool :=
  c == ' ' || c == '\t' || c == '\n' || c == '\r' || c == '\x0b' || c == '\x0c'

/-- Model of `s.trim()`. -/
def trimL (s : Str) : Str :=
  ((s.dropWhile isJsSpace).reverse.dropWhile isJsSpace).reverse

/-- JS object-spread precedence on one optional field: the overriding object's
present field wins, an absent one lets the base value through. -/
def jsOr {α : Type} : Option α → Option α → Option α
  | some a, _ => some a
  | none, b => b

/-- The `{ ...p, ...saved }` merge of a stale entry with a saved payload. -/
def spreadOver (p saved : Item) : Item :=
  { id := saved.id, name := saved.name, lat := saved.lat, lng := saved.lng,
    description := jsOr saved.description p.description,
    category := jsOr saved.category p.category,
    ty := jsOr saved.ty p.ty,
    photo_url := jsOr saved.photo_url p.photo_url }

/-- The payload built by `handleSubmit` once validation passed. -/
def payloadOf (editing : Option Item) (form : PlaceForm) (la ln : JsNum) : Item :=
  { id := match editing with | some e => e.id | none => 0,
    name := trimL form.name,
    description := some (trimL form.description),
    ty := some (trimL form.ty),
    category := none,
    lat := .num la, lng := .num ln,
    photo_url := some (trimL form.photo_url) }

/-- Gateway outcome of the save call: the fetch rejected, the response was not
ok, or it was ok with a body (`none` models a failed `response.json()`, in
which case the code falls back to the payload itself). -/
inductive SubmitOutcome where
  | netFail
  | respNotOk
  | ok (body : Option Item)
deriving DecidableEq

/-- `handleSubmit` run to completion for one gateway outcome; `now` models
`Date.now()`.  The second component records whether the gateway was
contacted. -/
def handleSubmit (s : AdminState) (o : SubmitOutcome) (now : Int) : AdminState × Bool :=
  if (trimL s.form.name).isEmpty then
    ({ s with statusMessage := some msgNameRequired }, false)
  else match s.form.lat, s.form.lng with
  | none, _ => ({ s with statusMessage := some msgLocationRequired }, false)
  | _, none => ({ s with statusMessage := some msgLocationRequired }, false)
  | some la, some ln =>
    let payload := payloadOf s.editing s.form la ln
    match o with
    | .netFail | .respNotOk =>
        let placesAfter := match s.editing with
          | some e => s.places.map (fun p => if p.id = e.id then spreadOver p payload else p)
          | none => s.places ++ [{ payload with id := now }]
        ({ s with places := placesAfter, statusMessage := some msgDegradedSave }, true)
    | .ok body =>
        let saved := match body with | some it => it | none => payload
        match s.editing with
        | some e =>
            ({ s with
                places := s.places.map (fun p => if p.id = e.id then spreadOver p saved else p),
                statusMessage := some msgUpdated }, true)
        | none =>
            ({ s with places := s.places ++ [saved],
                      statusMessage := some msgCreated,
                      form := createEmptyPlaceForm,
                      placementMarker := none }, true)

/-- Gateway outcome of the delete or of a generic authenticated call. -/
inductive SimpleOutcome where
  | netFail
  | respNotOk
  | ok
deriving DecidableEq

/-- `resetForm`. -/
def resetFormFn (s : AdminState) : AdminState :=
  { s with editing := none, form := createEmptyPlaceForm, statusMessage := none }

/-- `handleDelete` run to completion: an unconfirmed dialog does nothing;
otherwise the local removal and the placement-marker removal happen before the
gateway call, and only the status message (plus a form reset when the deleted
place was being edited and the call succeeded) depends on the outcome. -/
def handleDelete (s : AdminState) (p : Item) (confirmed : Bool)
    (o : SimpleOutcome) : AdminState × Bool :=
  if confirmed = false then (s, false)
  else
    let s1 := { s with statusMessage := none,
                       places := s.places.filter (fun x => x.id != p.id),
                       placementMarker := none }
    match o with
    | .ok =>
        let s2 := { s1 with statusMessage := some msgDeleted }
        (match s.editing with
         | some e => if e.id = p.id then resetFormFn s2 else s2
         | none => s2, true)
    | _ => ({ s1 with statusMessage := some msgDegradedDelete }, true)

/-- Gateway outcome of the login call: rejected fetch, non-ok response
(e.g. invalid credentials), ok response whose body lacks a string token, or ok
response carrying a token. -/
inductive LoginOutcome where
  | netFail
  | respNotOk
  | okBadBody
  | okToken (t : Str)
deriving DecidableEq

/-- The fixed demonstration email. -/
def demoEmail : Str := str "demo@tula.mx"

/-- The fixed demonstration password. -/
def demoPassword : Str := str "demo123"

/-- The local demonstration token. -/
def demoToken : Str := str "demo-local-token"

/-- `handleLogin` run to completion: every outcome other than a well-formed
token lands in the catch branch, where the demonstration pair is accepted
locally and anything else surfaces an error. -/
def handleLogin (s : AdminState) (o : LoginOutcome) : AdminState :=
  let s0 := { s with loginError := none, loginInfo := none }
  match o with
  | .okToken t => { s0 with token := some t, loginInfo := some msgLoggedIn }
  | _ =>
      if s.loginForm.email = demoEmail ∧ s.loginForm.password = demoPassword then
        { s0 with token := some demoToken, loginInfo := some msgDemoLogin }
      else { s0 with loginError := some msgLoginFailed }

/-- `handleLogout`. -/
def handleLogout (s : AdminState) : AdminState :=
  { s with token := none, places := [], form := createEmptyPlaceForm,
           editing := none, statusMessage := none,
           loginForm := { email := [], password := [] } }

/-- `focusPlace`: load the place into the draft (coordinates only when they
are numbers), select it for editing, and fly the camera once when the map is
live and both coordinates are numbers. -/
def focusPlace (s : AdminState) (p : Item) : AdminState × Nat :=
  let formAfter : PlaceForm :=
    { name := p.name,
      description := strOr p.description [],
      ty := strOr p.ty [],
      photo_url := strOr p.photo_url [],
      lat := match p.lat with | .num x => some x | .notNum => none,
      lng := match p.lng with | .num x => some x | .notNum => none }
  ({ s with editing := some p, form := formAfter, statusMessage := none },
   match s.mapReady, p.lat, p.lng with
   | true, .num _, .num _ => 1
   | _, _, _ => 0)

/-- The map click listener: set both draft coordinates and clear the status
message.  The listener only exists once the map does. -/
def mapClick (s : AdminState) (la ln : JsNum) : AdminState :=
  if s.mapReady then
    { s with form := { s.form with lat := some la, lng := some ln },
             statusMessage := none }
  else s

/-- The admin `loadPlaces` effect for one fetch outcome. -/
def adminLoadPlaces (s : AdminState) (r : FetchRes) : AdminState :=
  match r with
  | .netFail => { s with places := FALLBACK_PLACES, placesError := some msgAdminLoadFailed }
  | .resp ok body =>
      if ok = false then
        { s with places := FALLBACK_PLACES, placesError := some msgAdminLoadFailed }
      else match body with
        | .failJson =>
            { s with places := FALLBACK_PLACES, placesError := some msgAdminLoadFailed }
        | .arr xs =>
            { s with places := xs,
                     placesError := if xs.isEmpty then some msgAdminEmpty else none }
        | .nonArr => { s with places := [], placesError := some msgAdminEmpty }

/-- The events driving the super-admin view. -/
inductive AdminEvent where
  | evMapClick (la ln : JsNum)
  | evFormChange (field : FormField) (value : Str)
  | evSubmit (o : SubmitOutcome) (now : Int)
  | evDelete (p : Item) (confirmed : Bool) (o : SimpleOutcome)
  | evFocusPlace (p : Item)
  | evNewPlace
  | evLogin (o : LoginOutcome)
  | evLoginChange (isEmail : Bool) (value : Str)
  | evLogout
  | evLoadPlaces (r : FetchRes)

/-- Dispatch one event to its handler. -/
def applyAdminEvent (s : AdminState) : AdminEvent → AdminState
  | .evMapClick la ln => mapClick s la ln
  | .evFormChange field value => { s with form := handleFormChange s.form field value }
  | .evSubmit o now => (handleSubmit s o now).1
  | .evDelete p confirmed o => (handleDelete s p confirmed o).1
  | .evFocusPlace p => (focusPlace s p).1
  | .evNewPlace => resetFormFn s
  | .evLogin o => handleLogin s o
  | .evLoginChange isEmail value =>
      { s with loginForm :=
          if isEmail then { s.loginForm with email := value }
          else { s.loginForm with password := value } }
  | .evLogout => handleLogout s
  | .evLoadPlaces r => adminLoadPlaces s r

/-- One commit of the super-admin view: run the handler, then the placement
effect when its dependencies changed. -/
def adminStep (s : AdminState) (ev : AdminEvent) : AdminState :=
  placementEffect s (applyAdminEvent s ev)

/-- The invariant claimed for the placement marker: on a live map, the marker
exists exactly when both draft coordinates are present. -/
def placementInvB (s : AdminState) : Bool :=
  s.mapReady && (s.placementMarker.isSome == (s.form.lat.isSome && s.form.lng.isSome))

/-- An authenticated admin state with a live map and the sample place loaded,
used to instantiate universally quantified theorems. -/
def adminS0 : AdminState :=
  { token := some demoToken, loginForm := { email := [], password := [] },
    loginError := none, loginInfo := none,
    places := FALLBACK_PLACES, placesError := none,
    editing := none, form := createEmptyPlaceForm,
    statusMessage := none, placementMarker := none, markerGen := 0, mapReady := true }

/-- An anonymous admin state whose login form holds the demonstration pair. -/
def demoLoginState : AdminState :=
  { adminS0 with token := none,
                 loginForm := { email := demoEmail, password := demoPassword } }

/-- A draft whose latitude was typed as the non-numeric text "abc": the
`Number` coercion stores NaN. -/
def c8Form : PlaceForm :=
  handleFormChange
    { createEmptyPlaceForm with name := str "Mirador", lng := some (.finite 0) }
    .flat (str "abc")

/-- A catalog item whose latitude is the number NaN. -/
def nanItem : Item := { fallbackArtisan1 with lat := .num .nan }

/-- A one-entry catalog with finite numeric coordinates. -/
def oneEntryCatalog : List Entry := [tagEntry .artesano fallbackArtisan1]

/-- An admin state whose draft is valid: non-empty name and both coordinates
designated. -/
def c5State : AdminState :=
  { adminS0 with
      form := { name := str "Mirador", description := [], ty := [], photo_url := [],
                lat := some (.finite (mkRat 2006 100)),
                lng := some (.finite (mkRat (-9934) 100)) } }

/-- The admin state after clicking the map at a concrete point. -/
def c4Mid : AdminState :=
  adminStep adminS0 (.evMapClick (.finite (mkRat 20 1)) (.finite (mkRat (-99) 1)))

/-- The state after then confirming the deletion of the sample place while the
gateway is down. -/
def c4End : AdminState := adminStep c4Mid (.evDelete fallbackPlace1 true .netFail)

/-- Every string contains the empty string. -/
theorem hasSub_nil_right (hay : Str) : hasSub hay [] = true := by
  induction hay with
  | nil => rfl
  | cons c t ih => simp [hasSub, leadsWith]

/-- C2: the filter returns a sublist of the aggregated catalog (hence a
subsequence preserving relative order), every returned entry matches the query
case-insensitively on its name, description or category/type field, and the
empty query returns the full aggregation unchanged. -/
theorem itemsView_filter_spec (artisans places : List Item) (q : Str) :
    List.Sublist (itemsView artisans places q) (aggregate artisans places)
    ∧ (∀ e ∈ itemsView artisans places q,
        containsCI e.name q = true ∨ containsCI (entryDesc e) q = true
          ∨ containsCI (entryMeta e) q = true)
    ∧ itemsView artisans places [] = aggregate artisans places := by
  refine ⟨?_, ?_, rfl⟩
  · unfold itemsView
    by_cases hq : q.isEmpty
    · simp [hq]
    · simp only [hq, if_false, Bool.false_eq_true]
      exact List.filter_sublist _
  · intro e he
    unfold itemsView at he
    by_cases hq : q.isEmpty
    · have hq0 : q = [] := by
        cases q with
        | nil => rfl
        | cons a t => simp [List.isEmpty] at hq
      subst hq0
      exact Or.inl (hasSub_nil_right _)
    · simp only [hq, if_false, Bool.false_eq_true] at he
      have hm := (List.mem_filter.mp he).2
      unfold matchesQuery at hm
      rcases Bool.or_eq_true_iff.mp hm with h | h
      · rcases Bool.or_eq_true_iff.mp h with h1 | h1
        · exact Or.inl h1
        · exact Or.inr (Or.inl h1)
      · exact Or.inr (Or.inr h)

/-- Witness for C2 at the sample catalog and the query "tula". -/
theorem itemsView_filter_spec_witness :
    List.Sublist (itemsView FALLBACK_ARTISANS FALLBACK_PLACES (str "tula"))
        (aggregate FALLBACK_ARTISANS FALLBACK_PLACES)
    ∧ (containsCI sampleQueryEntry.name (str "tula") = true
        ∨ containsCI (entryDesc sampleQueryEntry) (str "tula") = true
        ∨ containsCI (entryMeta sampleQueryEntry) (str "tula") = true) :=
  ⟨(itemsView_filter_spec FALLBACK_ARTISANS FALLBACK_PLACES (str "tula")).1,
   (itemsView_filter_spec FALLBACK_ARTISANS FALLBACK_PLACES (str "tula")).2.1
     sampleQueryEntry (by decide)⟩

/-- C1 counterexample: with an unchanged one-entry catalog, the second run of
the marker effect performs one removal and one addition, not zero of each. -/
theorem reconcile_second_pass_not_zero :
    ¬((reconcilePublicPass (reconcilePublicPass [] oneEntryCatalog).markers
          oneEntryCatalog).removedCount = 0
      ∧ (reconcilePublicPass (reconcilePublicPass [] oneEntryCatalog).markers
          oneEntryCatalog).addedCount = 0)
    ∧ (reconcilePublicPass (reconcilePublicPass [] oneEntryCatalog).markers
        oneEntryCatalog).removedCount = 1
    ∧ (reconcilePublicPass (reconcilePublicPass [] oneEntryCatalog).markers
        oneEntryCatalog).addedCount = 1 := by decide

/-- C1 (amended): both marker effects are full teardown-and-rebuild passes.
Re-running a pass with an unchanged catalog (and unchanged editing target)
leaves the marker list identical — the reconciliation is idempotent in its
resulting state — but the second run removes every existing marker and
recreates one per rendered entry, so it performs as many removals and
additions as the first run created, never a per-key diff, and markers for
unchanged keys are rebuilt as well. -/
theorem reconcile_full_rebuild (prev : List MarkerM) (items : List Entry)
    (places : List Item) (editing : Option Item) :
    (reconcilePublicPass (reconcilePublicPass prev items).markers items).markers
        = (reconcilePublicPass prev items).markers
    ∧ (reconcilePublicPass (reconcilePublicPass prev items).markers items).removedCount
        = (reconcilePublicPass prev items).markers.length
    ∧ (reconcilePublicPass (reconcilePublicPass prev items).markers items).addedCount
        = (reconcilePublicPass prev items).addedCount
    ∧ (reconcileAdminPass (reconcileAdminPass prev places editing).markers places editing).markers
        = (reconcileAdminPass prev places editing).markers
    ∧ (reconcileAdminPass (reconcileAdminPass prev places editing).markers places editing).removedCount
        = (reconcileAdminPass prev places editing).markers.length
    ∧ (reconcileAdminPass (reconcileAdminPass prev places editing).markers places editing).addedCount
        = (reconcileAdminPass prev places editing).addedCount :=
  ⟨rfl, rfl, rfl, rfl, rfl, rfl⟩

/-- C9 counterexample: an entry whose latitude is the number NaN — not a
finite number — is not skipped: the pass creates a marker for it, because the
guard only checks the runtime type. -/
theorem marker_nan_not_skipped_cex :
    (tagEntry .artesano nanItem).lat = .num .nan
    ∧ JsNum.isFiniteNum .nan = false
    ∧ (reconcilePublicPass [] [tagEntry .artesano nanItem]).markers
        = [publicMarkerOf (tagEntry .artesano nanItem)] := by decide

/-- C9 (amended): the pass skips exactly the entries whose latitude or
longitude is not of runtime number type, and completes for every input: the
marker count equals the count of entries passing the type guard, every entry
passing the guard receives its marker, and every marker comes from an entry
passing the guard.  Entries whose coordinates are non-finite numbers (NaN,
infinities) pass the guard and receive markers. -/
theorem marker_type_guard (prev : List MarkerM) (items : List Entry) :
    (reconcilePublicPass prev items).markers.length
        = (items.filter (fun e => renderGuard e.toItem)).length
    ∧ (∀ e ∈ items, renderGuard e.toItem = true →
        publicMarkerOf e ∈ (reconcilePublicPass prev items).markers)
    ∧ (∀ m ∈ (reconcilePublicPass prev items).markers,
        ∃ e, e ∈ items ∧ renderGuard e.toItem = true ∧ m = publicMarkerOf e) := by
  refine ⟨by simp [reconcilePublicPass], ?_, ?_⟩
  · intro e he hg
    exact List.mem_map_of_mem publicMarkerOf (List.mem_filter.mpr ⟨he, hg⟩)
  · intro m hm
    obtain ⟨e, hef, hme⟩ := List.mem_map.mp hm
    obtain ⟨hei, hg⟩ := List.mem_filter.mp hef
    exact ⟨e, hei, hg, hme.symm⟩

/-- Witness for C9 (amended): the sample place, whose coordinates are numbers,
receives its marker. -/
theorem marker_type_guard_witness :
    publicMarkerOf sampleQueryEntry
      ∈ (reconcilePublicPass [] (aggregate [] FALLBACK_PLACES)).markers :=
  (marker_type_guard [] (aggregate [] FALLBACK_PLACES)).2.1 sampleQueryEntry
    (by decide) (by decide)

/-- After the self-heal effect the selected key, when present, is in view. -/
theorem selfHeal_selected (s : PubState) (it : Entry)
    (h : (selfHeal s).selected = some it) : viewHasKey (selfHeal s) it = true := by
  rcases hs : s.selected with _ | it0
  · simp [selfHeal, hs] at h
  · cases hv : viewHasKey s it0
    · simp [selfHeal, hs, hv] at h
    · simp [selfHeal, hs, hv] at h ⊢
      subst h
      exact hv

/-- C3: after any event followed by the self-heal effect, a non-empty
selection always has its composite key in the current filtered view; a step
issues at most one camera fly-to, and a query or catalog update issues none —
in particular, when such an update removes the focused key, the selection
transitions to none without the camera moving again. -/
theorem selection_focus_invariant (s : PubState) (ev : PubEvent) :
    (∀ it, (pubStep s ev).1.selected = some it →
        viewHasKey (pubStep s ev).1 it = true)
    ∧ (pubStep s ev).2 ≤ 1
    ∧ (∀ q0, ev = .setQuery q0 → (pubStep s ev).2 = 0)
    ∧ (∀ a p, ev = .setCatalog a p → (pubStep s ev).2 = 0) := by
  refine ⟨?_, ?_, ?_, ?_⟩
  · intro it h
    cases ev with
    | setQuery q0 => exact selfHeal_selected _ it h
    | setCatalog a p => exact selfHeal_selected _ it h
    | focusOn e => exact selfHeal_selected _ it h
  · cases ev with
    | setQuery q0 => exact Nat.zero_le 1
    | setCatalog a p => exact Nat.zero_le 1
    | focusOn e =>
        show (focusFn s e).2 ≤ 1
        unfold focusFn
        by_cases hm : s.mapReady = true <;> simp [hm]
  · intro q0 he
    subst he
    rfl
  · intro a p he
    subst he
    rfl

/-- Witness for C3: focusing the sample place from the sample catalog leaves
it selected, in view, with a single camera movement. -/
theorem selection_focus_invariant_witness :
    viewHasKey (pubStep pubS0 (.focusOn sampleQueryEntry)).1 sampleQueryEntry = true
    ∧ (pubStep pubS0 (.focusOn sampleQueryEntry)).2 ≤ 1 :=
  ⟨(selection_focus_invariant pubS0 (.focusOn sampleQueryEntry)).1 sampleQueryEntry
      (by decide),
   (selection_focus_invariant pubS0 (.focusOn sampleQueryEntry)).2.1⟩

/-- C7 counterexample: when the artisan response is ok but its body is
well-formed JSON that is not an array — a malformed non-array body — the
explorer substitutes the empty list, not the sample dataset, and surfaces no
warning. -/
theorem load_nonarray_cex :
    loadData (.resp true .nonArr) (.resp true (.arr [])) = ([], [], none)
    ∧ FALLBACK_ARTISANS ≠ [] ∧ msgLoadFailed ≠ [] := by decide

/-- C7 (amended): a rejected fetch, a non-success response or a JSON parse
failure — for either collection — makes the load substitute the fixed sample
dataset of exactly one artisan and one place and surface the warning; a
successful load keeps the array bodies; a parseable non-array body is replaced
by the empty list for that collection with no warning; the load is a total
function, hence never fatal. -/
theorem load_failure_amended (a p : FetchRes) (axs pxs : List Item) :
    (loadAborts a p = true →
        loadData a p = (FALLBACK_ARTISANS, FALLBACK_PLACES, some msgLoadFailed)
        ∧ FALLBACK_ARTISANS.length = 1 ∧ FALLBACK_PLACES.length = 1)
    ∧ loadData (.resp true (.arr axs)) (.resp true (.arr pxs)) = (axs, pxs, none)
    ∧ loadData (.resp true .nonArr) (.resp true (.arr pxs)) = ([], pxs, none)
    ∧ (loadAborts a p = false → (loadData a p).2.2 = none) := by
  refine ⟨?_, rfl, rfl, ?_⟩
  · intro h
    rcases a with _ | ⟨aok, ab⟩ <;> rcases p with _ | ⟨pok, pb⟩
    · exact ⟨rfl, rfl, rfl⟩
    · exact ⟨rfl, rfl, rfl⟩
    · exact ⟨rfl, rfl, rfl⟩
    · cases aok
      · exact ⟨rfl, rfl, rfl⟩
      · cases pok
        · exact ⟨rfl, rfl, rfl⟩
        · cases ab <;> cases pb <;>
            first
              | exact ⟨rfl, rfl, rfl⟩
              | simp [loadAborts, BodyParse.isFailJson] at h
  · intro h
    rcases a with _ | ⟨aok, ab⟩ <;> rcases p with _ | ⟨pok, pb⟩
    · exact Bool.noConfusion h
    · exact Bool.noConfusion h
    · exact Bool.noConfusion h
    · cases aok
      · exact Bool.noConfusion h
      · cases pok
        · exact Bool.noConfusion h
        · cases ab <;> cases pb <;>
            first
              | rfl
              | simp [loadAborts, BodyParse.isFailJson] at h

/-- Witness for C7 (amended): a double network failure yields the sample
dataset with the warning, and a successful empty-array load yields no
warning. -/
theorem load_failure_amended_witness :
    loadData .netFail .netFail = (FALLBACK_ARTISANS, FALLBACK_PLACES, some msgLoadFailed)
    ∧ (loadData (.resp true (.arr [])) (.resp true (.arr []))).2.2 = none :=
  ⟨((load_failure_amended .netFail .netFail [] []).1 (by decide)).1,
   (load_failure_amended (.resp true (.arr [])) (.resp true (.arr [])) [] []).2.2.2
     (by decide)⟩

/-- C6 counterexample: with the demonstration pair in the login form, a
gateway response that arrives but is not successful — the shape of a valid
"invalid credentials" response — still enters the authenticated state with the
demonstration token, because the thrown error lands in the same catch branch
as a network failure. -/
theorem login_demo_fallback_cex :
    demoLoginState.token = none
    ∧ (handleLogin demoLoginState .respNotOk).token = some demoToken
    ∧ (handleLogin demoLoginState .respNotOk).loginInfo = some msgDemoLogin := by decide

/-- C6 (amended): the demonstration pair is accepted as a local fallback on
every failed login attempt — network failure, non-success response, or a
success response without a string token — not only when the gateway call
itself fails; with any other credentials every such failure leaves the token
unchanged and surfaces the error message. -/
theorem login_fallback_amended (s : AdminState) (o : LoginOutcome)
    (hfail : o = .netFail ∨ o = .respNotOk ∨ o = .okBadBody) :
    ((s.loginForm.email = demoEmail ∧ s.loginForm.password = demoPassword) →
        (handleLogin s o).token = some demoToken
        ∧ (handleLogin s o).loginInfo = some msgDemoLogin)
    ∧ (¬(s.loginForm.email = demoEmail ∧ s.loginForm.password = demoPassword) →
        (handleLogin s o).token = s.token
        ∧ (handleLogin s o).loginError = some msgLoginFailed) := by
  rcases hfail with rfl | rfl | rfl <;>
    exact ⟨fun hd => by simp [handleLogin, hd], fun hd => by simp [handleLogin, hd]⟩

/-- Witness for C6 (amended): the demonstration pair with a network failure
enters the demonstration session. -/
theorem login_fallback_amended_witness :
    (handleLogin demoLoginState .netFail).token = some demoToken :=
  ((login_fallback_amended demoLoginState .netFail (Or.inl rfl)).1 (by decide)).1

/-- C8 counterexample: a draft whose latitude was typed as non-numeric text
holds NaN — a present but non-numeric coordinate — passes validation and is
submitted: the gateway is contacted. -/
theorem submit_nan_coordinate_cex :
    c8Form.lat = some .nan
    ∧ JsNum.isFiniteNum .nan = false
    ∧ (handleSubmit { adminS0 with form := c8Form } .netFail 5).2 = true := by decide

/-- C8 (amended): a draft with an empty (or whitespace-only) name or a missing
coordinate is rejected before any network call — the gateway is not contacted,
places, form and editing target are unchanged, and one of the two inline
messages is reported; conversely the gateway is only ever contacted with a
non-empty trimmed name and both coordinates present.  A present coordinate
holding NaN (from coercing non-numeric text) is not rejected. -/
theorem submit_validation_amended (s : AdminState) (o : SubmitOutcome) (now : Int) :
    (((trimL s.form.name).isEmpty = true ∨ s.form.lat = none ∨ s.form.lng = none) →
        (handleSubmit s o now).2 = false
        ∧ (handleSubmit s o now).1.places = s.places
        ∧ (handleSubmit s o now).1.form = s.form
        ∧ (handleSubmit s o now).1.editing = s.editing
        ∧ ((handleSubmit s o now).1.statusMessage = some msgNameRequired
            ∨ (handleSubmit s o now).1.statusMessage = some msgLocationRequired))
    ∧ ((handleSubmit s o now).2 = true →
        (trimL s.form.name).isEmpty = false
        ∧ s.form.lat.isSome = true ∧ s.form.lng.isSome = true) := by
  cases hne : (trimL s.form.name).isEmpty
  · rcases hla : s.form.lat with _ | la
    · refine ⟨fun _ => ?_, fun h2 => ?_⟩
      · simp [handleSubmit, hne, hla]
      · simp [handleSubmit, hne, hla] at h2
    · rcases hln : s.form.lng with _ | ln
      · refine ⟨fun _ => ?_, fun h2 => ?_⟩
        · simp [handleSubmit, hne, hla, hln]
        · simp [handleSubmit, hne, hla, hln] at h2
      · refine ⟨fun h => ?_, fun _ => by simp [hne, hla, hln]⟩
        rcases h with h | h | h
        · exact Bool.noConfusion h
        · exact Option.noConfusion h
        · exact Option.noConfusion h
  · refine ⟨fun _ => ?_, fun h2 => ?_⟩
    · simp [handleSubmit, hne]
    · simp [handleSubmit, hne] at h2

/-- Witness for C8 (amended): the empty initial draft is rejected without
contacting the gateway, reporting an inline message. -/
theorem submit_validation_amended_witness :
    (handleSubmit adminS0 .netFail 0).2 = false
    ∧ ((handleSubmit adminS0 .netFail 0).1.statusMessage = some msgNameRequired
        ∨ (handleSubmit adminS0 .netFail 0).1.statusMessage = some msgLocationRequired) := by
  have h := (submit_validation_amended adminS0 .netFail 0).1 (Or.inl (by decide))
  exact ⟨h.1, h.2.2.2.2⟩

/-- C5: on gateway failure (rejected fetch or non-success response) a
validated create appends the payload under the locally-generated id `now`, a
validated update replaces every entry carrying the edited id with the merged
client-supplied payload, and both report the degraded-mode warning; a
confirmed delete removes the id from local state under every gateway outcome
and reports the degraded-mode warning on failure.  All handlers are total
functions of state and outcome: no exception escapes and nothing is rolled
back. -/
theorem mutation_degraded_apply (s : AdminState) (now : Int) (o : SubmitOutcome)
    (pd : Item) (od : SimpleOutcome) (la ln : JsNum)
    (hfail : o = .netFail ∨ o = .respNotOk)
    (hname : (trimL s.form.name).isEmpty = false)
    (hla : s.form.lat = some la) (hln : s.form.lng = some ln) :
    (handleSubmit s o now).2 = true
    ∧ (handleSubmit s o now).1.statusMessage = some msgDegradedSave
    ∧ (s.editing = none →
        (handleSubmit s o now).1.places
          = s.places ++ [{ payloadOf none s.form la ln with id := now }])
    ∧ (∀ e, s.editing = some e →
        (handleSubmit s o now).1.places
          = s.places.map (fun p =>
              if p.id = e.id then spreadOver p (payloadOf (some e) s.form la ln) else p))
    ∧ (handleDelete s pd true od).2 = true
    ∧ (∀ x ∈ (handleDelete s pd true od).1.places, x.id ≠ pd.id)
    ∧ (od ≠ .ok → (handleDelete s pd true od).1.statusMessage = some msgDegradedDelete) := by
  have hdel : ∀ x ∈ (handleDelete s pd true od).1.places, x.id ≠ pd.id := by
    intro x hx
    have hmem : x ∈ s.places.filter (fun y => y.id != pd.id) := by
      rcases od with _ | _ | _
      · exact hx
      · exact hx
      · rcases he : s.editing with _ | e
        · simpa [handleDelete, he] using hx
        · by_cases hid : e.id = pd.id
          · simpa [handleDelete, he, hid, resetFormFn] using hx
          · simpa [handleDelete, he, hid] using hx
    have := (List.mem_filter.mp hmem).2
    simpa [bne_iff_ne] using this
  rcases hfail with rfl | rfl <;>
    refine ⟨by simp [handleSubmit, hname, hla, hln], ?_, ?_, ?_, ?_, hdel, ?_⟩
  · simp [handleSubmit, hname, hla, hln]
  · intro he
    simp [handleSubmit, hname, hla, hln, he]
  · intro e he
    simp [handleSubmit, hname, hla, hln, he]
  · rcases od with _ | _ | _ <;> simp [handleDelete]
  · intro hod
    rcases od with _ | _ | _
    · rfl
    · rfl
    · exact absurd rfl hod
  · simp [handleSubmit, hname, hla, hln]
  · intro he
    simp [handleSubmit, hname, hla, hln, he]
  · intro e he
    simp [handleSubmit, hname, hla, hln, he]
  · rcases od with _ | _ | _ <;> simp [handleDelete]
  · intro hod
    rcases od with _ | _ | _
    · rfl
    · rfl
    · exact absurd rfl hod

/-- Witness for C5: creating "Mirador" while the gateway is offline appends a
locally-identified entry and reports the degraded-mode warning, and a confirmed
offline delete of the sample place leaves no entry with its id. -/
theorem mutation_degraded_apply_witness :
    (handleSubmit c5State .netFail 42).2 = true
    ∧ (handleSubmit c5State .netFail 42).1.statusMessage = some msgDegradedSave
    ∧ (handleSubmit c5State .netFail 42).1.places
        = c5State.places
            ++ [{ payloadOf none c5State.form (.finite (mkRat 2006 100))
                    (.finite (mkRat (-9934) 100)) with id := 42 }]
    ∧ (∀ x ∈ (handleDelete c5State fallbackPlace1 true .netFail).1.places,
        x.id ≠ fallbackPlace1.id) := by
  have h := mutation_degraded_apply c5State 42 .netFail fallbackPlace1 .netFail
    (.finite (mkRat 2006 100)) (.finite (mkRat (-9934) 100))
    (Or.inl rfl) (by decide) (by decide) (by decide)
  exact ⟨h.1, h.2.1, h.2.2.1 rfl, h.2.2.2.2.2.1⟩

/-- C10: after a successful create the draft form is reset to the empty draft,
the placement marker is removed and there is still no editing target; after a
successful update the draft form, editing target and placement marker are
unchanged, as are the session, login, error and map fields, and the places list
keeps its length with every entry of a different id surviving unchanged while
the status message reports the update. -/
theorem submit_success_frame (s : AdminState) (now : Int) (body : Option Item)
    (la ln : JsNum)
    (hname : (trimL s.form.name).isEmpty = false)
    (hla : s.form.lat = some la) (hln : s.form.lng = some ln) :
    (s.editing = none →
        (adminStep s (.evSubmit (.ok body) now)).form = createEmptyPlaceForm
        ∧ (adminStep s (.evSubmit (.ok body) now)).placementMarker = none
        ∧ (adminStep s (.evSubmit (.ok body) now)).editing = none
        ∧ (adminStep s (.evSubmit (.ok body) now)).statusMessage = some msgCreated)
    ∧ (∀ e, s.editing = some e →
        (adminStep s (.evSubmit (.ok body) now)).form = s.form
        ∧ (adminStep s (.evSubmit (.ok body) now)).editing = s.editing
        ∧ (adminStep s (.evSubmit (.ok body) now)).placementMarker = s.placementMarker
        ∧ (adminStep s (.evSubmit (.ok body) now)).statusMessage = some msgUpdated
        ∧ (adminStep s (.evSubmit (.ok body) now)).token = s.token
        ∧ (adminStep s (.evSubmit (.ok body) now)).loginForm = s.loginForm
        ∧ (adminStep s (.evSubmit (.ok body) now)).loginError = s.loginError
        ∧ (adminStep s (.evSubmit (.ok body) now)).loginInfo = s.loginInfo
        ∧ (adminStep s (.evSubmit (.ok body) now)).placesError = s.placesError
        ∧ (adminStep s (.evSubmit (.ok body) now)).markerGen = s.markerGen
        ∧ (adminStep s (.evSubmit (.ok body) now)).mapReady = s.mapReady
        ∧ (adminStep s (.evSubmit (.ok body) now)).places.length = s.places.length
        ∧ (∀ p ∈ s.places, p.id ≠ e.id →
            p ∈ (adminStep s (.evSubmit (.ok body) now)).places)) := by
  constructor
  · intro he
    have hsub : (handleSubmit s (.ok body) now).1
        = { s with
              places := s.places
                ++ [(match body with
                      | some it => it
                      | none => payloadOf s.editing s.form la ln)],
              statusMessage := some msgCreated,
              form := createEmptyPlaceForm,
              placementMarker := none } := by
      simp [handleSubmit, hname, hla, hln, he]
    have hstep : adminStep s (.evSubmit (.ok body) now)
        = placementEffect s (handleSubmit s (.ok body) now).1 := rfl
    rw [hstep, hsub]
    unfold placementEffect placementEffectRun
    rw [if_neg (by
      rw [hla]
      intro hc
      exact Option.noConfusion hc.1)]
    cases hm : s.mapReady <;> simp [hm, createEmptyPlaceForm, he]
  · intro e he
    have hsub : (handleSubmit s (.ok body) now).1
        = { s with
              places := s.places.map (fun p =>
                if p.id = e.id
                then spreadOver p (match body with
                  | some it => it
                  | none => payloadOf s.editing s.form la ln)
                else p),
              statusMessage := some msgUpdated } := by
      simp [handleSubmit, hname, hla, hln, he]
    have hstep : adminStep s (.evSubmit (.ok body) now)
        = placementEffect s (handleSubmit s (.ok body) now).1 := rfl
    have hskip : adminStep s (.evSubmit (.ok body) now)
        = (handleSubmit s (.ok body) now).1 := by
      rw [hstep]
      unfold placementEffect
      rw [if_pos]
      rw [hsub]
      exact ⟨rfl, rfl⟩
    rw [hskip, hsub]
    refine ⟨rfl, rfl, rfl, rfl, rfl, rfl, rfl, rfl, rfl, rfl, rfl, by simp, ?_⟩
    intro p hp hpid
    simp only [List.mem_map]
    refine ⟨p, hp, ?_⟩
    rw [if_neg hpid]

/-- Witness for C10 at the valid create draft: the form is reset and the
placement marker removed. -/
theorem submit_success_frame_witness :
    (adminStep c5State (.evSubmit (.ok none) 0)).form = createEmptyPlaceForm
    ∧ (adminStep c5State (.evSubmit (.ok none) 0)).placementMarker = none := by
  have h := (submit_success_frame c5State 0 none
    (.finite (mkRat 2006 100)) (.finite (mkRat (-9934) 100))
    (by decide) (by decide) (by decide)).1 rfl
  exact ⟨h.1, h.2.1⟩

/-- Unpack the placement invariant into its two components. -/
theorem placementInvB_parts (s : AdminState) (h : placementInvB s = true) :
    s.mapReady = true
    ∧ s.placementMarker.isSome = (s.form.lat.isSome && s.form.lng.isSome) := by
  unfold placementInvB at h
  simp only [Bool.and_eq_true, beq_iff_eq] at h
  exact h

/-- Running the placement effect body on a live map establishes the
invariant. -/
theorem placementEffectRun_inv (t : AdminState) (hm : t.mapReady = true) :
    placementInvB (placementEffectRun t) = true := by
  unfold placementEffectRun
  rw [if_neg (by simp [hm])]
  rcases hla : t.form.lat with _ | la <;> rcases hln : t.form.lng with _ | ln
  · simp [placementInvB, hm, hla, hln]
  · simp [placementInvB, hm, hla, hln]
  · simp [placementInvB, hm, hla, hln]
  · rcases hmk : t.placementMarker with _ | m <;>
      simp [hmk, placementInvB, hm, hla, hln]

/-- The dependency-gated placement effect yields an invariant state whenever
the handler state satisfies the marker-coordinate relation in the unchanged
case; in the changed case the effect body re-establishes it. -/
theorem placementEffect_inv_of (s t : AdminState)
    (hmr : t.mapReady = s.mapReady) (hm : s.mapReady = true)
    (hsame : t.form.lat = s.form.lat → t.form.lng = s.form.lng →
        t.placementMarker.isSome = (t.form.lat.isSome && t.form.lng.isSome)) :
    placementInvB (placementEffect s t) = true := by
  unfold placementEffect
  split
  · next hc =>
      unfold placementInvB
      rw [hmr, hm, hsame hc.1 hc.2]
      simp
  · next hc => exact placementEffectRun_inv t (hmr.trans hm)

/-- When a handler leaves the placement marker and map readiness unchanged,
the step preserves the invariant. -/
theorem placementEffect_inv_keep (s t : AdminState)
    (hmk : t.placementMarker = s.placementMarker)
    (hmr : t.mapReady = s.mapReady)
    (hinv : placementInvB s = true) :
    placementInvB (placementEffect s t) = true := by
  obtain ⟨hm, hiff⟩ := placementInvB_parts s hinv
  refine placementEffect_inv_of s t hmr hm ?_
  intro h1 h2
  rw [hmk, h1, h2, hiff]

/-- The save handler either leaves the draft and placement marker unchanged,
or — on a successful create — resets the draft and removes the marker while
the previous draft had a designated latitude. -/
theorem handleSubmit_fields (s : AdminState) (o : SubmitOutcome) (now : Int) :
    ((handleSubmit s o now).1.form = s.form
      ∧ (handleSubmit s o now).1.placementMarker = s.placementMarker
      ∧ (handleSubmit s o now).1.mapReady = s.mapReady
      ∧ (handleSubmit s o now).1.markerGen = s.markerGen)
    ∨ ((handleSubmit s o now).1.form = createEmptyPlaceForm
      ∧ (handleSubmit s o now).1.placementMarker = none
      ∧ (handleSubmit s o now).1.mapReady = s.mapReady
      ∧ (handleSubmit s o now).1.markerGen = s.markerGen
      ∧ s.form.lat ≠ none) := by
  cases hne : (trimL s.form.name).isEmpty
  · rcases hla : s.form.lat with _ | la
    · exact Or.inl (by simp [handleSubmit, hne, hla])
    · rcases hln : s.form.lng with _ | ln
      · exact Or.inl (by simp [handleSubmit, hne, hla, hln])
      · rcases o with _ | _ | body
        · exact Or.inl (by simp [handleSubmit, hne, hla, hln])
        · exact Or.inl (by simp [handleSubmit, hne, hla, hln])
        · rcases he : s.editing with _ | e
          · exact Or.inr (by simp [handleSubmit, hne, hla, hln, he])
          · exact Or.inl (by simp [handleSubmit, hne, hla, hln, he])
  · exact Or.inl (by simp [handleSubmit, hne])

/-- The delete handler either does nothing (unconfirmed) or removes the
placement marker while the draft either keeps its previous value or is reset
to the empty draft. -/
theorem handleDelete_fields (s : AdminState) (p : Item) (confirmed : Bool)
    (o : SimpleOutcome) :
    (handleDelete s p confirmed o).1 = s
    ∨ ((handleDelete s p confirmed o).1.placementMarker = none
        ∧ ((handleDelete s p confirmed o).1.form.lat = none
            ∨ (handleDelete s p confirmed o).1.form = s.form)
        ∧ (handleDelete s p confirmed o).1.mapReady = s.mapReady
        ∧ (handleDelete s p confirmed o).1.markerGen = s.markerGen) := by
  cases confirmed
  · exact Or.inl rfl
  · rcases o with _ | _ | _
    · exact Or.inr (by simp [handleDelete])
    · exact Or.inr (by simp [handleDelete])
    · rcases he : s.editing with _ | e
      · exact Or.inr (by simp [handleDelete, he])
      · by_cases hid : e.id = p.id
        · exact Or.inr
            (by simp [handleDelete, he, hid, resetFormFn, createEmptyPlaceForm])
        · exact Or.inr (by simp [handleDelete, he, hid])

/-- The login handler never touches the draft, the placement marker, the
generation counter or map readiness. -/
theorem handleLogin_fields (s : AdminState) (o : LoginOutcome) :
    (handleLogin s o).placementMarker = s.placementMarker
    ∧ (handleLogin s o).mapReady = s.mapReady
    ∧ (handleLogin s o).form = s.form
    ∧ (handleLogin s o).markerGen = s.markerGen := by
  rcases o with _ | _ | _ | t <;>
    by_cases hd : (s.loginForm.email = demoEmail ∧ s.loginForm.password = demoPassword) <;>
      simp [handleLogin, hd]

/-- The admin place load never touches the draft, the placement marker, the
generation counter or map readiness. -/
theorem adminLoadPlaces_fields (s : AdminState) (r : FetchRes) :
    (adminLoadPlaces s r).placementMarker = s.placementMarker
    ∧ (adminLoadPlaces s r).mapReady = s.mapReady
    ∧ (adminLoadPlaces s r).form = s.form
    ∧ (adminLoadPlaces s r).markerGen = s.markerGen := by
  rcases r with _ | ⟨ok, body⟩
  · exact ⟨rfl, rfl, rfl, rfl⟩
  · cases ok
    · exact ⟨rfl, rfl, rfl, rfl⟩
    · cases body <;> exact ⟨rfl, rfl, rfl, rfl⟩

/-- No event handler ever creates a placement marker: it either keeps the
existing one or removes it, and removal is accompanied by the draft losing
its latitude or keeping its previous value. -/
theorem applyAdminEvent_marker_src (s : AdminState) (ev : AdminEvent) :
    (applyAdminEvent s ev).placementMarker = s.placementMarker
    ∨ ((applyAdminEvent s ev).placementMarker = none
        ∧ ((applyAdminEvent s ev).form.lat = none
            ∨ (applyAdminEvent s ev).form = s.form)) := by
  cases ev with
  | evMapClick la ln =>
      left
      show (mapClick s la ln).placementMarker = s.placementMarker
      unfold mapClick
      split <;> rfl
  | evFormChange field value => exact Or.inl rfl
  | evSubmit o now =>
      show (handleSubmit s o now).1.placementMarker = s.placementMarker
        ∨ ((handleSubmit s o now).1.placementMarker = none
            ∧ ((handleSubmit s o now).1.form.lat = none
                ∨ (handleSubmit s o now).1.form = s.form))
      rcases handleSubmit_fields s o now with ⟨_, hmk, _, _⟩ | ⟨hf, hmk, _, _, _⟩
      · exact Or.inl hmk
      · exact Or.inr ⟨hmk, Or.inl (by rw [hf]; rfl)⟩
  | evDelete p confirmed o =>
      show (handleDelete s p confirmed o).1.placementMarker = s.placementMarker
        ∨ ((handleDelete s p confirmed o).1.placementMarker = none
            ∧ ((handleDelete s p confirmed o).1.form.lat = none
                ∨ (handleDelete s p confirmed o).1.form = s.form))
      rcases handleDelete_fields s p confirmed o with h | ⟨hmk, hforms, _, _⟩
      · exact Or.inl (by rw [h])
      · exact Or.inr ⟨hmk, hforms⟩
  | evFocusPlace p => exact Or.inl rfl
  | evNewPlace => exact Or.inl rfl
  | evLogin o => exact Or.inl (handleLogin_fields s o).1
  | evLoginChange isEmail value => exact Or.inl rfl
  | evLogout => exact Or.inl rfl
  | evLoadPlaces r => exact Or.inl (adminLoadPlaces_fields s r).1

/-- Every admin event other than a confirmed delete preserves the placement
invariant. -/
theorem admin_placement_inv (s : AdminState) (ev : AdminEvent)
    (hinv : placementInvB s = true)
    (hnd : ∀ p o, ev ≠ .evDelete p true o) :
    placementInvB (adminStep s ev) = true := by
  have hm := (placementInvB_parts s hinv).1
  cases ev with
  | evMapClick la ln =>
      show placementInvB (placementEffect s (mapClick s la ln)) = true
      refine placementEffect_inv_keep s _ ?_ ?_ hinv <;> simp [mapClick, hm]
  | evFormChange field value =>
      show placementInvB
          (placementEffect s { s with form := handleFormChange s.form field value }) = true
      exact placementEffect_inv_keep s _ rfl rfl hinv
  | evSubmit o now =>
      show placementInvB (placementEffect s (handleSubmit s o now).1) = true
      rcases handleSubmit_fields s o now with ⟨_, hmk, hmr, _⟩ | ⟨hf, hmk, hmr, _, hlat⟩
      · exact placementEffect_inv_keep s _ hmk hmr hinv
      · have hcond : ¬((handleSubmit s o now).1.form.lat = s.form.lat
            ∧ (handleSubmit s o now).1.form.lng = s.form.lng) := by
          intro hc
          have h0 := hc.1
          rw [hf] at h0
          exact hlat h0.symm
        unfold placementEffect
        rw [if_neg hcond]
        exact placementEffectRun_inv _ (hmr.trans hm)
  | evDelete p confirmed o =>
      cases confirmed
      · show placementInvB (placementEffect s (handleDelete s p false o).1) = true
        exact placementEffect_inv_keep s _ rfl rfl hinv
      · exact absurd rfl (hnd p o)
  | evFocusPlace p =>
      show placementInvB (placementEffect s (focusPlace s p).1) = true
      exact placementEffect_inv_keep s _ rfl rfl hinv
  | evNewPlace =>
      show placementInvB (placementEffect s (resetFormFn s)) = true
      exact placementEffect_inv_keep s _ rfl rfl hinv
  | evLogin o =>
      show placementInvB (placementEffect s (handleLogin s o)) = true
      exact placementEffect_inv_keep s _ (handleLogin_fields s o).1
        (handleLogin_fields s o).2.1 hinv
  | evLoginChange isEmail value =>
      show placementInvB (placementEffect s
        { s with loginForm :=
            if isEmail then { s.loginForm with email := value }
            else { s.loginForm with password := value } }) = true
      exact placementEffect_inv_keep s _ rfl rfl hinv
  | evLogout =>
      show placementInvB (placementEffect s (handleLogout s)) = true
      exact placementEffect_inv_keep s _ rfl rfl hinv
  | evLoadPlaces r =>
      show placementInvB (placementEffect s (adminLoadPlaces s r)) = true
      exact placementEffect_inv_keep s _ (adminLoadPlaces_fields s r).1
        (adminLoadPlaces_fields s r).2.1 hinv

/-- A placement marker surviving a step keeps its generation: the handle is
repositioned, never torn down and recreated within one step. -/
theorem adminStep_gen_preserved (s : AdminState) (ev : AdminEvent)
    (m mm : PlacementMarker)
    (h1 : s.placementMarker = some m)
    (h2 : (adminStep s ev).placementMarker = some mm) : mm.gen = m.gen := by
  have hsrc := applyAdminEvent_marker_src s ev
  have hstep : adminStep s ev = placementEffect s (applyAdminEvent s ev) := rfl
  rw [hstep] at h2
  unfold placementEffect at h2
  by_cases hc : ((applyAdminEvent s ev).form.lat = s.form.lat
      ∧ (applyAdminEvent s ev).form.lng = s.form.lng)
  · rw [if_pos hc] at h2
    rcases hsrc with h | ⟨hn, _⟩
    · rw [h, h1] at h2
      cases h2
      rfl
    · rw [hn] at h2
      exact Option.noConfusion h2
  · rw [if_neg hc] at h2
    unfold placementEffectRun at h2
    by_cases hmr : (applyAdminEvent s ev).mapReady = false
    · rw [if_pos hmr] at h2
      rcases hsrc with h | ⟨hn, _⟩
      · rw [h, h1] at h2
        cases h2
        rfl
      · rw [hn] at h2
        exact Option.noConfusion h2
    · rw [if_neg hmr] at h2
      rcases hla : (applyAdminEvent s ev).form.lat with _ | la <;>
        rcases hln : (applyAdminEvent s ev).form.lng with _ | ln <;>
          simp only [hla, hln] at h2
      · exact Option.noConfusion h2
      · exact Option.noConfusion h2
      · exact Option.noConfusion h2
      · rcases hmk : (applyAdminEvent s ev).placementMarker with _ | m2 <;>
          simp only [hmk] at h2
        · rcases hsrc with h | ⟨hn, hforms⟩
          · rw [hmk, h1] at h
            exact Option.noConfusion h
          · rcases hforms with hfl | hfe
            · rw [hla] at hfl
              exact Option.noConfusion hfl
            · exact absurd ⟨by rw [hfe], by rw [hfe]⟩ hc
        · rcases hsrc with h | ⟨hn, _⟩
          · rw [hmk, h1] at h
            cases h
            cases h2
            rfl
          · rw [hn] at hmk
            exact Option.noConfusion hmk

/-- C4 counterexample: from an invariant state, clicking the map creates the
placement marker (coordinates present, invariant holds); then confirming the
deletion of a place removes the marker while the draft coordinates remain
present, so the "marker iff coordinates present" invariant is violated even
though no submission succeeded and the coordinates did not become absent. -/
theorem placement_marker_delete_cex :
    placementInvB adminS0 = true
    ∧ placementInvB c4Mid = true
    ∧ placementInvB c4End = false
    ∧ c4End.form.lat.isSome = true
    ∧ c4End.form.lng.isSome = true
    ∧ c4End.placementMarker = none := by decide

/-- C4 (amended): on a live map the admin surface maintains exactly one
placement marker iff both draft coordinates are present, preserved by every
event — lazy creation on first coordinate assignment, repositioning on
changes, removal when the coordinates become absent or a create submission
succeeds (which clears them) — except a confirmed delete, which removes the
marker while the coordinates may remain present; moreover a marker that
survives a step keeps its generation, i.e. it is repositioned and never
recreated. -/
theorem placement_marker_inv_amended (s : AdminState) (ev : AdminEvent)
    (hinv : placementInvB s = true)
    (hnd : ∀ p o, ev ≠ .evDelete p true o) :
    placementInvB (adminStep s ev) = true
    ∧ (∀ m mm, s.placementMarker = some m →
        (adminStep s ev).placementMarker = some mm → mm.gen = m.gen) :=
  ⟨admin_placement_inv s ev hinv hnd,
   fun m mm h1 h2 => adminStep_gen_preserved s ev m mm h1 h2⟩

/-- Witness for C4 (amended): clicking the map from the initial invariant
state keeps the invariant. -/
theorem placement_marker_inv_amended_witness :
    placementInvB
      (adminStep adminS0 (.evMapClick (.finite (mkRat 20 1)) (.finite (mkRat (-99) 1))))
      = true :=
  (placement_marker_inv_amended adminS0
    (.evMapClick (.finite (mkRat 20 1)) (.finite (mkRat (-99) 1)))
    (by decide) (fun p o h => AdminEvent.noConfusion h)).1

end Tula
